import Mathlib

set_option linter.unusedVariables false

/-! Shallow embedding of the `filestorage` Go library: the in-memory expiring
cache (`pkg/storage/memory_cache.go`), the cache-backed token manager
(`pkg/storage/token_manager.go`), and the file-storage manager
(`pkg/storage/file_storage.go`) with its REST retry loop and its S3/GCS
object-store operations.

External effects (HTTP calls, cloud-SDK calls, the local file system, UUID
generation, JSON encoding/decoding, the clock) are passed in explicitly as
oracle values, so every function here is a pure, executable translation of
the corresponding Go function.  Instants and durations are unbounded
integers counting nanoseconds, mirroring Go's `time.Time.UnixNano` and
`time.Duration`. -/

namespace Filestorage

/-- Cache entry, from `Item` in memory_cache.go.  `Expiration` is a UnixNano
instant; `0` means the entry never expires (the Go zero value, left in place
by `Set` whenever the requested ttl is not positive). -/
structure Item where
  Value : String
  Expiration : Int
deriving DecidableEq

/-- State of `MemoryCache` (memory_cache.go): the `items` map. -/
structure MemoryCache where
  items : String → Option Item

/-- Translation of `MemoryCache.Set`: when `0 < expiry` the stored expiration
is `now + expiry`, otherwise it stays at the zero value `0`. -/
def MemoryCache.Set (c : MemoryCache) (key value : String) (expiry now : Int) :
    MemoryCache :=
  let expiration : Int := if 0 < expiry then now + expiry else 0
  ⟨fun k => if k = key then some ⟨value, expiration⟩ else c.items k⟩

/-- Translation of `MemoryCache.Get`: a present entry is reported missing when
`item.Expiration > 0 && now > item.Expiration`; the map itself is not
changed by a read (the function returns no new state). -/
def MemoryCache.Get (c : MemoryCache) (key : String) (now : Int) :
    String × Bool :=
  match c.items key with
  | none => ("", false)
  | some item =>
    if 0 < item.Expiration ∧ item.Expiration < now then ("", false)
    else (item.Value, true)

/-- Translation of `MemoryCache.Delete`. -/
def MemoryCache.Delete (c : MemoryCache) (key : String) : MemoryCache :=
  ⟨fun k => if k = key then none else c.items k⟩

/-- Translation of `MemoryCache.Has` (same lazy-expiry rule as `Get`). -/
def MemoryCache.Has (c : MemoryCache) (key : String) (now : Int) : Bool :=
  match c.items key with
  | none => false
  | some item =>
    if 0 < item.Expiration ∧ item.Expiration < now then false
    else true

/-- Translation of `MemoryCache.deleteExpired`, the body of the 5-minute
janitor sweep: removes exactly the entries with `Expiration > 0 && now >
Expiration`. -/
def MemoryCache.deleteExpired (c : MemoryCache) (now : Int) : MemoryCache :=
  ⟨fun k =>
    match c.items k with
    | none => none
    | some v => if 0 < v.Expiration ∧ v.Expiration < now then none else some v⟩

/-- The empty cache produced by `NewMemoryCache`. -/
def emptyCache : MemoryCache := ⟨fun _ => none⟩

/-- Parsed body of the authorization-server response (`TokenResponse` in
token_manager.go). -/
structure TokenResponse where
  access_token : String
  token_type : String
  expires_in : Int
deriving DecidableEq

/-- Outcome of the client-credentials POST performed by `GenerateToken`:
either the transport fails (`client.Do` / body read returns an error) or a
response body is obtained. -/
inductive AuthOutcome where
  | transportFailure (e : String)
  | response (body : String)
deriving DecidableEq

/-- One second in nanoseconds (`time.Second`). -/
def nanosPerSecond : Int := 1000000000

/-- The fixed cache key used by `NewCacheTokenManager`. -/
def tokenKey : String := "access_token"

/-- Translation of `CacheTokenManager.GenerateToken`.  `parseToken` stands
for `json.Unmarshal` into `TokenResponse` (`none` = malformed body).  On
success the token is stored in the cache under `tokenKey` with ttl
`expires_in` seconds, and returned. -/
def CacheTokenManager.GenerateToken
    (parseToken : String → Option TokenResponse) (auth : AuthOutcome)
    (cache : MemoryCache) (now : Int) : Except String String × MemoryCache :=
  match auth with
  | .transportFailure e => (.error e, cache)
  | .response body =>
    match parseToken body with
    | none => (.error "invalid token response", cache)
    | some tr =>
      (.ok tr.access_token,
        cache.Set tokenKey tr.access_token (tr.expires_in * nanosPerSecond) now)

/-- Translation of `CacheTokenManager.GetToken`.  The final `Nat` counts the
authorization-server requests issued by the call: `0` when the cached token
is served, `1` when `GenerateToken` runs. -/
def CacheTokenManager.GetToken
    (parseToken : String → Option TokenResponse) (auth : AuthOutcome)
    (cache : MemoryCache) (now : Int) :
    (Except String String × MemoryCache) × Nat :=
  let g := cache.Get tokenKey now
  if g.2 then ((.ok g.1, cache), 0)
  else (CacheTokenManager.GenerateToken parseToken auth cache now, 1)

/-- Translation of `CacheTokenManager.HasToken`. -/
def CacheTokenManager.HasToken (cache : MemoryCache) (now : Int) : Bool :=
  cache.Has tokenKey now

/-- Metadata envelope `FileInfo` (file_storage.go).  `Timestamp` is a
UnixNano instant; absent fields keep the Go zero values. -/
structure FileInfo where
  FileExt : String := ""
  FileID : String := ""
  FileMimeType : String := ""
  FileName : String := ""
  FileSize : Int := 0
  PublicLink : String := ""
  Tag : String := ""
  Timestamp : Int := 0
  Bucket : String := ""
deriving DecidableEq

/-- Unified result envelope `FileResponse` (file_storage.go).  The
`StreamData io.Reader` field is modelled as the streamed content when a
handle is attached. -/
structure FileResponse where
  status : String := ""
  message : String := ""
  data : String := ""
  fileID : String := ""
  info : Option FileInfo := none
  url : String := ""
  expiredAt : Int := 0
  stringData : String := ""
  streamData : Option String := none
deriving DecidableEq

/-- Constant `StatusSuccess` from file_storage.go. -/
def StatusSuccess : String := "OK"

/-- Constant `StatusError` from file_storage.go. -/
def StatusError : String := "ERR"

/-- Outcome of one HTTP attempt against the REST host (`client.Do`):
transport failure, or a response with a status code and a body. -/
inductive HttpOutcome where
  | transportFailure
  | response (code : Nat) (body : String)
deriving DecidableEq

/-- An attempt is treated as transient by the loop exactly when the
transport failed or the status code is a 5xx-or-above (`StatusCode >= 500`). -/
def HttpOutcome.isTransient : HttpOutcome → Bool
  | .transportFailure => true
  | .response code _ => decide (500 ≤ code)

/-- Whether a `GetToken` outcome is a success. -/
def tokenOk : Except String String → Bool
  | .ok _ => true
  | .error _ => false

/-- Oracle for one REST-backend call: the outcome of the `GetToken` call and
of the HTTP attempt on each loop iteration (iteration `n` runs with the
attempt counter equal to `n`). -/
structure RestOracle where
  tokenResult : Nat → Except String String
  httpOutcome : Nat → HttpOutcome

/-- Result of the retry loop shared by `UploadBase64File`, `Delete` and
`GetFileById`. -/
inductive RestLoopResult where
  | retryExhausted
  | tokenFailed (e : String)
  | response (code : Nat) (body : String)
deriving DecidableEq

/-- Translation of the retry loop body shared by the three REST operations:
fail with retry exhaustion once `attempts >= maxRetry`; abort on a
`GetToken` error; on transport failure or a `>= 500` status increment the
attempt counter, force a `GenerateToken` (counted in `regens`) and loop;
otherwise exit with the response. -/
def restLoop (maxRetry : Nat) (o : RestOracle) (attempts regens : Nat) :
    RestLoopResult × Nat :=
  if h : maxRetry ≤ attempts then (.retryExhausted, regens)
  else
    match o.tokenResult attempts with
    | .error e => (.tokenFailed e, regens)
    | .ok _tok =>
      match o.httpOutcome attempts with
      | .transportFailure => restLoop maxRetry o (attempts + 1) (regens + 1)
      | .response code body =>
        if 500 ≤ code then restLoop maxRetry o (attempts + 1) (regens + 1)
        else (.response code body, regens)
termination_by maxRetry - attempts
decreasing_by all_goals omega

/-- Errors surfaced by the REST operations. -/
inductive RestError where
  | validationError
  | retryExhausted
  | tokenFailed (e : String)
  | parseFailed (e : String)
deriving DecidableEq

/-- A full REST call: run the retry loop from `attempts = 0`, then read and
unmarshal the winning response body (`parse` stands for `ioutil.ReadAll`
plus `json.Unmarshal` into `FileResponse`).  The `Nat` component counts the
forced `GenerateToken` calls performed by the loop. -/
def restRequest (maxRetry : Nat) (parse : String → Except String FileResponse)
    (o : RestOracle) : Except RestError FileResponse × Nat :=
  match restLoop maxRetry o 0 0 with
  | (.retryExhausted, r) => (.error .retryExhausted, r)
  | (.tokenFailed e, r) => (.error (.tokenFailed e), r)
  | (.response _code body, r) =>
    match parse body with
    | .error e => (.error (.parseFailed e), r)
    | .ok fr => (.ok fr, r)

/-- Translation of `FileStorageManager.UploadBase64File`: validate the four
arguments, then run the shared retry loop. -/
def FileStorageManager.UploadBase64File (maxRetry : Nat)
    (parse : String → Except String FileResponse) (o : RestOracle)
    (filename extension mimetype base64file : String) :
    Except RestError FileResponse × Nat :=
  if filename = "" ∨ extension = "" ∨ mimetype = "" ∨ base64file = "" then
    (.error .validationError, 0)
  else restRequest maxRetry parse o

/-- Translation of `FileStorageManager.Delete`: the shared retry loop around
`DELETE {host}/d/files/{fileID}`. -/
def FileStorageManager.Delete (maxRetry : Nat)
    (parse : String → Except String FileResponse) (o : RestOracle)
    (fileID : String) : Except RestError FileResponse × Nat :=
  restRequest maxRetry parse o

/-- Translation of `FileStorageManager.GetFileById`: the shared retry loop
around `GET {host}/d/files/{fileID}`. -/
def FileStorageManager.GetFileById (maxRetry : Nat)
    (parse : String → Except String FileResponse) (o : RestOracle)
    (fileID : String) : Except RestError FileResponse × Nat :=
  restRequest maxRetry parse o

/-- Configuration bundle `Config` (file_storage.go). -/
structure Config where
  HostURI : String := ""
  AuthorizationServerURI : String := ""
  ClientID : String := ""
  ClientSecret : String := ""
  AWSKey : String := ""
  AWSSecret : String := ""
  AWSRegion : String := ""
  AWSBucket : String := ""
  GCSKeyPath : String := ""
  GCSProjectID : String := ""
  GCSBucket : String := ""
deriving DecidableEq

/-- Translation of `filepath.Base` for the `'/'` separator: `"."` for the
empty path, strip trailing separators, return `"/"` when only separators
remain, else the last path element. -/
def goPathBase (s : String) : String :=
  if s = "" then "."
  else
    let p := (s.toList.reverse.dropWhile (fun c => c == '/')).reverse
    if p = [] then "/"
    else ((p.reverse.takeWhile (fun c => c != '/')).reverse).asString

/-- Translation of `filepath.Ext`: the suffix of the last path element
beginning at its final dot, or `""` when that element has no dot. -/
def goExt (s : String) : String :=
  let seg := s.toList.reverse.takeWhile (fun c => c != '/')
  if '.' ∈ seg then ((seg.takeWhile (fun c => c != '.')) ++ ['.']).reverse.asString
  else ""

/-- The `if extension != "" { extension = extension[1:] }` step that removes
the leading dot from a `filepath.Ext` result. -/
def goStripDot (ext : String) : String :=
  if ext = "" then ext else ⟨ext.toList.drop 1⟩

/-- The `origFilename[:len(origFilename)-len(extension)-1]` slice used to
compute `FileInfo.FileName` in `AwsUpload`/`GcsUpload` (the slice bound is
nonnegative for every extension actually computed from `origFilename`). -/
def goTrimName (orig extension : String) : String :=
  ⟨orig.toList.take (orig.toList.length - extension.toList.length - 1)⟩

/-- Decidable equality for `Except`, used by the derived instances below. -/
instance exceptDecEq {ε α : Type} [DecidableEq ε] [DecidableEq α] :
    DecidableEq (Except ε α)
  | .error a, .error b =>
    if h : a = b then .isTrue (congrArg Except.error h)
    else .isFalse (fun he => h (Except.error.inj he))
  | .error _, .ok _ => .isFalse (fun he => Except.noConfusion he)
  | .ok _, .error _ => .isFalse (fun he => Except.noConfusion he)
  | .ok a, .ok b =>
    if h : a = b then .isTrue (congrArg Except.ok h)
    else .isFalse (fun he => h (Except.ok.inj he))

/-- A caller-supplied multipart file: its reported name and content type,
and the combined outcome of `file.Open()` / `ioutil.ReadAll` on it. -/
structure MultipartFile where
  filename : String := ""
  contentType : String := ""
  content : Except String String := .ok ""
deriving DecidableEq

/-- What `s3Client.GetObject` hands back on success. -/
structure S3Object where
  body : String := ""
  contentType : String := ""
  contentLength : Int := 0
  etag : String := ""
deriving DecidableEq

/-- Outcome of an `io.Copy` from a backend reader into a local file: either
the full content is written, or the copy stops with some bytes `written`
and an error. -/
inductive CopyOutcome where
  | success
  | failure (written : String) (e : String)
deriving DecidableEq

/-- Oracle for the AWS-SDK steps of one object-store call: each field is the
outcome the SDK would report for that step (`none` / `.ok` = no failure). -/
structure AwsEnv where
  newSession : Option String := none
  putObject : Option String := none
  deleteObject : Option String := none
  getObject : Except String S3Object := .ok {}
  readBody : Option String := none
  createFile : Option String := none
  copyOutcome : CopyOutcome := .success
  presign : Except String String := .ok ""
deriving DecidableEq

/-- Translation of `FileStorageManager.GetAwsClient`: fails exactly when
`session.NewSession` fails. -/
def GetAwsClient (env : AwsEnv) : Except String Unit :=
  match env.newSession with
  | some e => .error e
  | none => .ok ()

/-- Local file system state: path to file content. -/
abbrev FS := String → Option String

/-- Create/truncate-and-write a local file (`os.Create` plus writes). -/
def fsWrite (fs : FS) (path content : String) : FS :=
  fun p => if p = path then some content else fs p

/-- Translation of `os.Remove`. -/
def fsRemove (fs : FS) (path : String) : FS :=
  fun p => if p = path then none else fs p

/-- Translation of `FileStorageManager.AwsUpload`.  `uuid` is the value of
`uuid.New().String()` and `now` the value of `time.Now()`. -/
def FileStorageManager.AwsUpload (cfg : Config) (env : AwsEnv) (uuid : String)
    (now : Int) (file : MultipartFile) (subdirectory bucketname : String) :
    Except String FileResponse :=
  match file.content with
  | .error e => .error e
  | .ok data =>
    let origFilename := goPathBase file.filename
    let extension := goStripDot (goExt origFilename)
    let uniqueFilename := uuid ++ "." ++ extension
    let fileID :=
      if subdirectory ≠ "" then subdirectory ++ "/" ++ uniqueFilename
      else uniqueFilename
    let bucketname := if bucketname = "" then cfg.AWSBucket else bucketname
    match GetAwsClient env with
    | .error e => .ok { status := StatusError, message := e }
    | .ok _ =>
      match env.putObject with
      | some e => .ok { status := StatusError, message := e }
      | none =>
        let publicURL := "https://" ++ bucketname ++ ".s3." ++ cfg.AWSRegion
          ++ ".amazonaws.com/" ++ fileID
        .ok { status := StatusSuccess,
              message := "INSERT " ++ fileID,
              fileID := fileID,
              info := some { FileExt := extension,
                             FileID := fileID,
                             FileMimeType := file.contentType,
                             FileName := goTrimName origFilename extension,
                             FileSize := (data.length : Int),
                             PublicLink := publicURL,
                             Tag := "",
                             Timestamp := now } }

/-- Translation of `FileStorageManager.AwsDelete`: client construction, then
`DeleteObject`; no existence check of its own, so the outcome mirrors the
SDK's. -/
def FileStorageManager.AwsDelete (cfg : Config) (env : AwsEnv)
    (awsFileID bucketname : String) : Except String FileResponse :=
  let bucketname := if bucketname = "" then cfg.AWSBucket else bucketname
  match GetAwsClient env with
  | .error e => .ok { status := StatusError, message := e }
  | .ok _ =>
    match env.deleteObject with
    | some e => .ok { status := StatusError, message := e }
    | none => .ok { status := StatusSuccess, message := "DELETE " ++ awsFileID }

/-- Translation of `FileStorageManager.AwsGetFileById`.  `b64` stands for
`base64.StdEncoding.EncodeToString`. -/
def FileStorageManager.AwsGetFileById (cfg : Config) (env : AwsEnv)
    (b64 : String → String) (now : Int) (awsFileID bucketname : String) :
    Except String FileResponse :=
  let bucketname := if bucketname = "" then cfg.AWSBucket else bucketname
  match GetAwsClient env with
  | .error e => .ok { status := StatusError, message := e }
  | .ok _ =>
    match env.getObject with
    | .error e => .ok { status := StatusError, message := e }
    | .ok result =>
      match env.readBody with
      | some e => .ok { status := StatusError, message := e }
      | none =>
        let extension := goStripDot (goExt awsFileID)
        let publicURL := "https://" ++ bucketname ++ ".s3." ++ cfg.AWSRegion
          ++ ".amazonaws.com/" ++ awsFileID
        .ok { status := StatusSuccess,
              data := b64 result.body,
              info := some { FileExt := extension,
                             FileID := awsFileID,
                             FileMimeType := result.contentType,
                             FileSize := result.contentLength,
                             PublicLink := publicURL,
                             Tag := result.etag,
                             Timestamp := now } }

/-- Translation of `FileStorageManager.AwsDownloadFile`: create the local
file, fetch the object, copy; on a fetch or copy failure the partially
written file is removed with `os.Remove` before returning. -/
def FileStorageManager.AwsDownloadFile (cfg : Config) (env : AwsEnv)
    (fs : FS) (awsFileID bucketname saveAsPath : String) :
    Except String FileResponse × FS :=
  let bucketname := if bucketname = "" then cfg.AWSBucket else bucketname
  match GetAwsClient env with
  | .error e => (.ok { status := StatusError, message := e }, fs)
  | .ok _ =>
    match env.createFile with
    | some e => (.ok { status := StatusError, message := e }, fs)
    | none =>
      let fs1 := fsWrite fs saveAsPath ""
      match env.getObject with
      | .error e => (.ok { status := StatusError, message := e }, fsRemove fs1 saveAsPath)
      | .ok result =>
        match env.copyOutcome with
        | .failure written e =>
          (.ok { status := StatusError, message := e },
           fsRemove (fsWrite fs1 saveAsPath written) saveAsPath)
        | .success =>
          (.ok { status := StatusSuccess,
                 message := "File success saved to " ++ saveAsPath },
           fsWrite fs1 saveAsPath result.body)

/-- Translation of `FileStorageManager.AwsGetTemporaryPublicLink`.  A zero
`expiry` instant (Go `time.Time.IsZero`) defaults to `now + 30` minutes. -/
def FileStorageManager.AwsGetTemporaryPublicLink (cfg : Config) (env : AwsEnv)
    (now : Int) (awsFileID : String) (expiry : Int) (bucketname : String) :
    Except String FileResponse :=
  let bucketname := if bucketname = "" then cfg.AWSBucket else bucketname
  let expiry := if expiry = 0 then now + 30 * 60 * nanosPerSecond else expiry
  match GetAwsClient env with
  | .error e => .ok { status := StatusError, message := e }
  | .ok _ =>
    match env.presign with
    | .error e => .ok { status := StatusError, message := e }
    | .ok urlStr =>
      .ok { status := StatusSuccess, url := urlStr, expiredAt := expiry }

/-- What `obj.Attrs` hands back on success for a GCS object. -/
structure GcsAttrs where
  contentType : String := ""
  size : Int := 0
  etag : String := ""
  created : Int := 0
deriving DecidableEq

/-- The fields parsed out of the service-account JSON key file. -/
structure GcsKeyData where
  client_email : String := ""
  private_key : String := ""
deriving DecidableEq

/-- Oracle for the GCS-SDK steps of one object-store call (`none` / `.ok` =
no failure at that step). `readerContent` is the content the object reader
yields when reading succeeds. -/
structure GcsEnv where
  newClient : Option String := none
  bucketAttrs : Option String := none
  objectAttrs : Except String GcsAttrs := .ok {}
  writeErr : Option String := none
  closeErr : Option String := none
  newReader : Option String := none
  readAllErr : Option String := none
  readerContent : String := ""
  deleteObject : Option String := none
  createFile : Option String := none
  copyOutcome : CopyOutcome := .success
  keyFile : Except String String := .ok ""
  keyUnmarshal : Except String GcsKeyData := .ok {}
  signedURL : Except String String := .ok ""
deriving DecidableEq

/-- Translation of `FileStorageManager.GetGcsClient`: error when the key
path or (defaulted) project id is empty, else the `storage.NewClient`
outcome. -/
def GetGcsClient (cfg : Config) (env : GcsEnv) (projectID : String) :
    Except String Unit :=
  let projectID := if projectID = "" then cfg.GCSProjectID else projectID
  if cfg.GCSKeyPath = "" ∨ projectID = "" then .error "credential not found"
  else
    match env.newClient with
    | some e => .error e
    | none => .ok ()

/-- Translation of `FileStorageManager.GcsUpload`. -/
def FileStorageManager.GcsUpload (cfg : Config) (env : GcsEnv) (uuid : String)
    (file : MultipartFile) (subdirectory bucketname projectID : String) :
    Except String FileResponse :=
  match file.content with
  | .error e => .error e
  | .ok data =>
    let origFilename := goPathBase file.filename
    let extension := goStripDot (goExt origFilename)
    let uniqueFilename := uuid ++ "." ++ extension
    let fileID :=
      if subdirectory ≠ "" then subdirectory ++ "/" ++ uniqueFilename
      else uniqueFilename
    let bucketname := if bucketname = "" then cfg.GCSBucket else bucketname
    match GetGcsClient cfg env projectID with
    | .error e => .ok { status := StatusError, message := e }
    | .ok _ =>
      match env.bucketAttrs with
      | some _ => .ok { status := StatusError, message := "Bucket not found" }
      | none =>
        match env.writeErr with
        | some e => .ok { status := StatusError, message := e }
        | none =>
          match env.closeErr with
          | some e => .ok { status := StatusError, message := e }
          | none =>
            match env.objectAttrs with
            | .error e => .ok { status := StatusError, message := e }
            | .ok attrs =>
              let publicURL :=
                "https://storage.googleapis.com/" ++ bucketname ++ "/" ++ fileID
              .ok { status := StatusSuccess,
                    message := "INSERT " ++ fileID,
                    fileID := fileID,
                    info := some { FileExt := extension,
                                   FileID := fileID,
                                   FileMimeType := attrs.contentType,
                                   FileName := goTrimName origFilename extension,
                                   FileSize := attrs.size,
                                   PublicLink := publicURL,
                                   Tag := attrs.etag,
                                   Timestamp := attrs.created,
                                   Bucket := bucketname } }

/-- Translation of `FileStorageManager.GcsDelete`: client, bucket check,
object existence check (an `obj.Attrs` error yields the not-found message),
then delete. -/
def FileStorageManager.GcsDelete (cfg : Config) (env : GcsEnv)
    (gcsFileID bucketname projectID : String) : Except String FileResponse :=
  let bucketname := if bucketname = "" then cfg.GCSBucket else bucketname
  match GetGcsClient cfg env projectID with
  | .error e => .ok { status := StatusError, message := e }
  | .ok _ =>
    match env.bucketAttrs with
    | some _ => .ok { status := StatusError, message := "Bucket not found" }
    | none =>
      match env.objectAttrs with
      | .error _ =>
        .ok { status := StatusError,
              message := "Object " ++ gcsFileID ++ " not found" }
      | .ok _ =>
        match env.deleteObject with
        | some e => .ok { status := StatusError, message := e }
        | none =>
          .ok { status := StatusSuccess, message := "DELETE " ++ gcsFileID }

/-- Translation of `FileStorageManager.GcsGetFileById`. -/
def FileStorageManager.GcsGetFileById (cfg : Config) (env : GcsEnv)
    (b64 : String → String) (gcsFileID bucketname projectID : String) :
    Except String FileResponse :=
  let bucketname := if bucketname = "" then cfg.GCSBucket else bucketname
  match GetGcsClient cfg env projectID with
  | .error e => .ok { status := StatusError, message := e }
  | .ok _ =>
    match env.bucketAttrs with
    | some _ => .ok { status := StatusError, message := "Bucket not found" }
    | none =>
      match env.objectAttrs with
      | .error _ =>
        .ok { status := StatusError,
              message := "Object " ++ gcsFileID ++ " not found" }
      | .ok attrs =>
        match env.newReader with
        | some e => .ok { status := StatusError, message := e }
        | none =>
          match env.readAllErr with
          | some e => .ok { status := StatusError, message := e }
          | none =>
            let extension := goStripDot (goExt gcsFileID)
            let publicURL :=
              "https://storage.googleapis.com/" ++ bucketname ++ "/" ++ gcsFileID
            .ok { status := StatusSuccess,
                  data := b64 env.readerContent,
                  info := some { FileExt := extension,
                                 FileID := gcsFileID,
                                 FileMimeType := attrs.contentType,
                                 FileSize := attrs.size,
                                 PublicLink := publicURL,
                                 Tag := attrs.etag,
                                 Timestamp := attrs.created,
                                 Bucket := bucketname } }

/-- Translation of `FileStorageManager.GcsDownloadFile`: client, bucket and
object checks, create the local file, obtain the reader, copy; a reader or
copy failure removes the created file with `os.Remove` before returning. -/
def FileStorageManager.GcsDownloadFile (cfg : Config) (env : GcsEnv)
    (fs : FS) (gcsFileID saveAsPath bucketname projectID : String) :
    Except String FileResponse × FS :=
  let bucketname := if bucketname = "" then cfg.GCSBucket else bucketname
  match GetGcsClient cfg env projectID with
  | .error e => (.ok { status := StatusError, message := e }, fs)
  | .ok _ =>
    match env.bucketAttrs with
    | some _ => (.ok { status := StatusError, message := "Bucket not found" }, fs)
    | none =>
      match env.objectAttrs with
      | .error _ =>
        (.ok { status := StatusError,
               message := "Object " ++ gcsFileID ++ " not found" }, fs)
      | .ok _ =>
        match env.createFile with
        | some e => (.ok { status := StatusError, message := e }, fs)
        | none =>
          let fs1 := fsWrite fs saveAsPath ""
          match env.newReader with
          | some e =>
            (.ok { status := StatusError, message := e }, fsRemove fs1 saveAsPath)
          | none =>
            match env.copyOutcome with
            | .failure written e =>
              (.ok { status := StatusError, message := e },
               fsRemove (fsWrite fs1 saveAsPath written) saveAsPath)
            | .success =>
              (.ok { status := StatusSuccess,
                     message := "File success saved to " ++ saveAsPath },
               fsWrite fs1 saveAsPath env.readerContent)

/-- Translation of `FileStorageManager.GcsGetFileByIdAsString`. -/
def FileStorageManager.GcsGetFileByIdAsString (cfg : Config) (env : GcsEnv)
    (gcsFileID bucketname projectID : String) : Except String FileResponse :=
  let bucketname := if bucketname = "" then cfg.GCSBucket else bucketname
  match GetGcsClient cfg env projectID with
  | .error e => .ok { status := StatusError, message := e }
  | .ok _ =>
    match env.bucketAttrs with
    | some _ => .ok { status := StatusError, message := "Bucket not found" }
    | none =>
      match env.objectAttrs with
      | .error _ =>
        .ok { status := StatusError,
              message := "Object " ++ gcsFileID ++ " not found" }
      | .ok _ =>
        match env.newReader with
        | some e => .ok { status := StatusError, message := e }
        | none =>
          match env.readAllErr with
          | some e => .ok { status := StatusError, message := e }
          | none =>
            .ok { status := StatusSuccess, stringData := env.readerContent }

/-- Translation of `FileStorageManager.GcsGetFileByIdAsStream`: on success
the open reader is handed to the caller in `StreamData`. -/
def FileStorageManager.GcsGetFileByIdAsStream (cfg : Config) (env : GcsEnv)
    (gcsFileID bucketname projectID : String) : Except String FileResponse :=
  let bucketname := if bucketname = "" then cfg.GCSBucket else bucketname
  match GetGcsClient cfg env projectID with
  | .error e => .ok { status := StatusError, message := e }
  | .ok _ =>
    match env.bucketAttrs with
    | some _ => .ok { status := StatusError, message := "Bucket not found" }
    | none =>
      match env.objectAttrs with
      | .error _ =>
        .ok { status := StatusError,
              message := "Object " ++ gcsFileID ++ " not found" }
      | .ok _ =>
        match env.newReader with
        | some e => .ok { status := StatusError, message := e }
        | none =>
          .ok { status := StatusSuccess, streamData := some env.readerContent }

/-- Translation of `FileStorageManager.GcsGetTemporaryPublicLink`: client,
bucket and object checks, read and parse the service-account key file, then
sign the URL.  A zero `expiry` defaults to `now + 30` minutes. -/
def FileStorageManager.GcsGetTemporaryPublicLink (cfg : Config) (env : GcsEnv)
    (now : Int) (gcsFileID : String) (expiry : Int)
    (bucketname projectID : String) : Except String FileResponse :=
  let bucketname := if bucketname = "" then cfg.GCSBucket else bucketname
  let expiry := if expiry = 0 then now + 30 * 60 * nanosPerSecond else expiry
  match GetGcsClient cfg env projectID with
  | .error e => .ok { status := StatusError, message := e }
  | .ok _ =>
    match env.bucketAttrs with
    | some _ => .ok { status := StatusError, message := "Bucket not found" }
    | none =>
      match env.objectAttrs with
      | .error _ =>
        .ok { status := StatusError,
              message := "Object " ++ gcsFileID ++ " not found" }
      | .ok _ =>
        match env.keyFile with
        | .error e =>
          .ok { status := StatusError,
                message := "Failed to read service account key: " ++ e }
        | .ok jsonKey =>
          match env.keyUnmarshal with
          | .error e =>
            .ok { status := StatusError,
                  message := "Failed to parse service account key: " ++ e }
          | .ok _keyData =>
            match env.signedURL with
            | .error e => .ok { status := StatusError, message := e }
            | .ok url =>
              .ok { status := StatusSuccess, url := url, expiredAt := expiry }

/-- Status field of an operation result, `""` when the call raised an
error instead of returning an envelope. -/
def statusOf : Except String FileResponse → String
  | .ok r => r.status
  | .error _ => ""

/-- Info field of an operation result, `none` when the call raised. -/
def infoOf : Except String FileResponse → Option FileInfo
  | .ok r => r.info
  | .error _ => none

/-- FileID field of an operation result, `""` when the call raised. -/
def fileIDOf : Except String FileResponse → String
  | .ok r => r.fileID
  | .error _ => ""

/-- Concrete oracle: every `GetToken` succeeds, attempt 0 gets a 503 and
every later attempt a 200. -/
def oracleW : RestOracle :=
  ⟨fun _ => .ok "tok", fun n => if n = 0 then .response 503 "" else .response 200 "body"⟩

/-- Concrete oracle whose `GetToken` always fails. -/
def oracleW5 : RestOracle := ⟨fun _ => .error "boom", fun _ => .transportFailure⟩

/-- Concrete body parser returning a fixed successful envelope. -/
def parseW : String → Except String FileResponse :=
  fun _ => .ok { status := StatusSuccess }

/-- Concrete token parser returning a fixed one-hour token. -/
def parseTokenW : String → Option TokenResponse :=
  fun _ => some { access_token := "tok", token_type := "bearer", expires_in := 3600 }

/-- Concrete configuration with GCS credentials present. -/
def cfgW : Config := { GCSKeyPath := "key.json", GCSProjectID := "proj" }

/-- GCS environment for a key absent from the bucket: `obj.Attrs` reports
`storage.ErrObjectNotExist`, every other step would succeed. -/
def gcsEnvMissingObj : GcsEnv :=
  { objectAttrs := .error "storage: object doesn\x27t exist" }

/-- C6: an entry stored by `Set(key, value, ttl)` with `ttl > 0` (at a
positive UnixNano instant) is reported found by `Get` and `Has` at every
instant strictly before the stored expiration `tSet + ttl` and not found at
every instant after it; the check is lazy: the entry itself stays in the
`items` map (reads return no new state and the entry is still physically
present, whatever the time). -/
theorem C6_cache_expiry (c : MemoryCache) (key value : String) (ttl tSet : Int)
    (hset : 0 < tSet) (httl : 0 < ttl) :
    (∀ t : Int, t < tSet + ttl →
      (c.Set key value ttl tSet).Get key t = (value, true) ∧
      (c.Set key value ttl tSet).Has key t = true) ∧
    (∀ t : Int, tSet + ttl < t →
      (c.Set key value ttl tSet).Get key t = ("", false) ∧
      (c.Set key value ttl tSet).Has key t = false) ∧
    (c.Set key value ttl tSet).items key = some ⟨value, tSet + ttl⟩ := by
  have hitems : (c.Set key value ttl tSet).items key = some ⟨value, tSet + ttl⟩ := by
    simp [MemoryCache.Set, if_pos httl]
  refine ⟨?_, ?_, hitems⟩
  · intro t ht
    constructor
    · simp only [MemoryCache.Get, hitems]
      rw [if_neg (by omega)]
    · simp only [MemoryCache.Has, hitems]
      rw [if_neg (by omega)]
  · intro t ht
    constructor
    · simp only [MemoryCache.Get, hitems]
      rw [if_pos (by omega)]
    · simp only [MemoryCache.Has, hitems]
      rw [if_pos (by omega)]

/-- C6 witness at a concrete entry: found strictly before expiry, gone
after, still physically present in the map. -/
theorem C6_cache_expiry_witness :
    (emptyCache.Set "k" "v" 5 1).Get "k" 3 = ("v", true) ∧
    (emptyCache.Set "k" "v" 5 1).Has "k" 7 = false ∧
    (emptyCache.Set "k" "v" 5 1).items "k" = some ⟨"v", 6⟩ :=
  ⟨((C6_cache_expiry emptyCache "k" "v" 5 1 (by decide) (by decide)).1 3 (by decide)).1,
   ((C6_cache_expiry emptyCache "k" "v" 5 1 (by decide) (by decide)).2.1 7 (by decide)).2,
   (C6_cache_expiry emptyCache "k" "v" 5 1 (by decide) (by decide)).2.2⟩

/-- C7: an entry stored with a non-positive ttl never expires: `Get` and
`Has` report it found at every instant, and `deleteExpired` (the body of
the janitor sweep) leaves it in place at every sweep instant. -/
theorem C7_nonexpiring (c : MemoryCache) (key value : String) (ttl tSet : Int)
    (httl : ttl ≤ 0) :
    (∀ t : Int,
      (c.Set key value ttl tSet).Get key t = (value, true) ∧
      (c.Set key value ttl tSet).Has key t = true) ∧
    (∀ tSweep : Int,
      ((c.Set key value ttl tSet).deleteExpired tSweep).items key = some ⟨value, 0⟩ ∧
      ∀ t : Int,
        ((c.Set key value ttl tSet).deleteExpired tSweep).Get key t = (value, true)) := by
  have hitems : (c.Set key value ttl tSet).items key = some ⟨value, 0⟩ := by
    simp [MemoryCache.Set, if_neg (by omega : ¬ (0:Int) < ttl)]
  have hswept : ∀ tSweep : Int,
      ((c.Set key value ttl tSet).deleteExpired tSweep).items key = some ⟨value, 0⟩ := by
    intro tSweep
    simp only [MemoryCache.deleteExpired, hitems]
    rw [if_neg (by omega)]
  refine ⟨?_, ?_⟩
  · intro t
    constructor
    · simp only [MemoryCache.Get, hitems]
      rw [if_neg (by omega)]
    · simp only [MemoryCache.Has, hitems]
      rw [if_neg (by omega)]
  · intro tSweep
    refine ⟨hswept tSweep, ?_⟩
    intro t
    simp only [MemoryCache.Get, hswept tSweep]
    rw [if_neg (by omega)]

/-- C7 witness at a concrete non-expiring entry. -/
theorem C7_nonexpiring_witness :
    (emptyCache.Set "k" "v" 0 1).Get "k" 1000000000000 = ("v", true) ∧
    ((emptyCache.Set "k" "v" 0 1).deleteExpired 999).items "k" = some ⟨"v", 0⟩ :=
  ⟨((C7_nonexpiring emptyCache "k" "v" 0 1 (by decide)).1 1000000000000).1,
   ((C7_nonexpiring emptyCache "k" "v" 0 1 (by decide)).2 999).1⟩

/-- C3: `GenerateToken` returns an error exactly when the transport to the
authorization server fails or the response body does not unmarshal; on
every parseable response it returns the parsed `access_token` and stores it
in the cache under the fixed token key with ttl `expires_in` seconds. -/
theorem C3_generate_token (parseToken : String → Option TokenResponse)
    (auth : AuthOutcome) (cache : MemoryCache) (now : Int) :
    ((∃ e, (CacheTokenManager.GenerateToken parseToken auth cache now).1 = .error e) ↔
      (∃ e, auth = .transportFailure e) ∨
      (∃ body, auth = .response body ∧ parseToken body = none)) ∧
    (∀ body tr, auth = .response body → parseToken body = some tr →
      CacheTokenManager.GenerateToken parseToken auth cache now =
        (.ok tr.access_token,
         cache.Set tokenKey tr.access_token (tr.expires_in * nanosPerSecond) now)) := by
  constructor
  · cases auth with
    | transportFailure e => simp [CacheTokenManager.GenerateToken]
    | response body =>
      cases hp : parseToken body with
      | none => simp [CacheTokenManager.GenerateToken, hp]
      | some tr => simp [CacheTokenManager.GenerateToken, hp]
  · intro body tr hb hp
    subst hb
    simp [CacheTokenManager.GenerateToken, hp]

/-- C3 witness: a concrete parseable response is returned and cached with
its `expires_in` ttl. -/
theorem C3_generate_token_witness :
    CacheTokenManager.GenerateToken parseTokenW (.response "b") emptyCache 5 =
      (.ok "tok", emptyCache.Set tokenKey "tok" (3600 * nanosPerSecond) 5) :=
  (C3_generate_token parseTokenW (.response "b") emptyCache 5).2 "b"
    { access_token := "tok", token_type := "bearer", expires_in := 3600 } rfl rfl

/-- C9: when the cache holds no live token at `t1`, the first `GetToken`
call issues one authorization-server request, returns the generated token
and caches it; a second `GetToken` at any `t2` within the ttl window
returns the same token from the cache, leaves the cache unchanged and
issues zero requests — whatever oracle the second call would have used.
In total: exactly one request. -/
theorem C9_token_reuse (parseToken : String → Option TokenResponse)
    (auth : AuthOutcome) (parse2 : String → Option TokenResponse)
    (auth2 : AuthOutcome) (c0 : MemoryCache) (t1 t2 : Int)
    (body : String) (tr : TokenResponse)
    (h1 : 0 < t1) (h12 : t1 ≤ t2)
    (hmiss : (c0.Get tokenKey t1).2 = false)
    (hauth : auth = .response body) (hp : parseToken body = some tr)
    (hexp : 0 < tr.expires_in)
    (hlive : t2 ≤ t1 + tr.expires_in * nanosPerSecond) :
    CacheTokenManager.GetToken parseToken auth c0 t1 =
      ((.ok tr.access_token,
        c0.Set tokenKey tr.access_token (tr.expires_in * nanosPerSecond) t1), 1) ∧
    CacheTokenManager.GetToken parse2 auth2
        (c0.Set tokenKey tr.access_token (tr.expires_in * nanosPerSecond) t1) t2 =
      ((.ok tr.access_token,
        c0.Set tokenKey tr.access_token (tr.expires_in * nanosPerSecond) t1), 0) := by
  have httl : 0 < tr.expires_in * nanosPerSecond := by
    have : (0:Int) < nanosPerSecond := by norm_num [nanosPerSecond]
    exact mul_pos hexp this
  constructor
  · subst hauth
    simp only [CacheTokenManager.GetToken, hmiss]
    simp [CacheTokenManager.GenerateToken, hp]
  · have hitems : (c0.Set tokenKey tr.access_token (tr.expires_in * nanosPerSecond) t1).items
        tokenKey = some ⟨tr.access_token, t1 + tr.expires_in * nanosPerSecond⟩ := by
      simp [MemoryCache.Set, if_pos httl]
    have hget : (c0.Set tokenKey tr.access_token (tr.expires_in * nanosPerSecond) t1).Get
        tokenKey t2 = (tr.access_token, true) := by
      simp only [MemoryCache.Get, hitems]
      rw [if_neg (by omega)]
    simp [CacheTokenManager.GetToken, hget]

/-- C9 witness: concrete cold cache at `t1 = 1`, second read at `t2 = 2`
inside the one-hour window. -/
theorem C9_token_reuse_witness :
    CacheTokenManager.GetToken parseTokenW (.response "b") emptyCache 1 =
      ((.ok "tok", emptyCache.Set tokenKey "tok" (3600 * nanosPerSecond) 1), 1) ∧
    CacheTokenManager.GetToken parseTokenW (.transportFailure "down")
        (emptyCache.Set tokenKey "tok" (3600 * nanosPerSecond) 1) 2 =
      ((.ok "tok", emptyCache.Set tokenKey "tok" (3600 * nanosPerSecond) 1), 0) :=
  C9_token_reuse parseTokenW (.response "b") parseTokenW (.transportFailure "down")
    emptyCache 1 2 "b"
    { access_token := "tok", token_type := "bearer", expires_in := 3600 }
    (by decide) (by decide) (by decide) rfl rfl (by decide) (by decide)

/-- Helper: when every iteration from `j` up to `maxRetry` gets a token and
a transient outcome, the loop exhausts its retries, forcing one token
regeneration per failed attempt. -/
theorem restLoop_exhaust (maxRetry : Nat) (o : RestOracle)
    (hall : ∀ n, n < maxRetry →
      tokenOk (o.tokenResult n) = true ∧ (o.httpOutcome n).isTransient = true) :
    ∀ d j regens, maxRetry - j = d →
      restLoop maxRetry o j regens = (.retryExhausted, regens + (maxRetry - j)) := by
  intro d
  induction d with
  | zero =>
    intro j regens hd
    unfold restLoop
    rw [dif_pos (by omega)]
    simp only [Prod.mk.injEq, true_and]
    omega
  | succ d ih =>
    intro j regens hd
    have hjlt : j < maxRetry := by omega
    obtain ⟨htok, htr⟩ := hall j hjlt
    unfold restLoop
    rw [dif_neg (by omega)]
    cases he : o.tokenResult j with
    | error e => rw [he] at htok; simp [tokenOk] at htok
    | ok tok =>
      simp only [he]
      cases hh : o.httpOutcome j with
      | transportFailure =>
        simp only [hh]
        rw [ih (j + 1) (regens + 1) (by omega)]
        simp only [Prod.mk.injEq, true_and]
        omega
      | response code body =>
        rw [hh] at htr
        have hc : 500 ≤ code := by
          simpa [HttpOutcome.isTransient] using htr
        simp only [hh]
        rw [if_pos hc, ih (j + 1) (regens + 1) (by omega)]
        simp only [Prod.mk.injEq, true_and]
        omega

/-- Helper: when iterations `j..i-1` are transient with tokens, iteration
`i < maxRetry` gets a token and a non-5xx response, the loop exits with
that response after `i - j` forced regenerations. -/
theorem restLoop_success (maxRetry : Nat) (o : RestOracle) (i code : Nat)
    (body : String)
    (hbefore : ∀ n, n < i →
      tokenOk (o.tokenResult n) = true ∧ (o.httpOutcome n).isTransient = true)
    (htok : tokenOk (o.tokenResult i) = true)
    (hresp : o.httpOutcome i = .response code body) (hcode : code < 500)
    (hi : i < maxRetry) :
    ∀ d j regens, i - j = d → j ≤ i →
      restLoop maxRetry o j regens = (.response code body, regens + (i - j)) := by
  intro d
  induction d with
  | zero =>
    intro j regens hd hj
    have hji : j = i := by omega
    subst hji
    unfold restLoop
    rw [dif_neg (by omega)]
    cases he : o.tokenResult j with
    | error e => rw [he] at htok; simp [tokenOk] at htok
    | ok tok =>
      simp only [he, hresp]
      rw [if_neg (by omega)]
      simp only [Prod.mk.injEq, true_and]
      omega
  | succ d ih =>
    intro j regens hd hj
    have hjlt : j < i := by omega
    obtain ⟨htokj, htrj⟩ := hbefore j hjlt
    unfold restLoop
    rw [dif_neg (by omega)]
    cases he : o.tokenResult j with
    | error e => rw [he] at htokj; simp [tokenOk] at htokj
    | ok tok =>
      simp only [he]
      cases hh : o.httpOutcome j with
      | transportFailure =>
        simp only [hh]
        rw [ih (j + 1) (regens + 1) (by omega) (by omega)]
        simp only [Prod.mk.injEq, true_and]
        omega
      | response code2 body2 =>
        rw [hh] at htrj
        have hc : 500 ≤ code2 := by
          simpa [HttpOutcome.isTransient] using htrj
        simp only [hh]
        rw [if_pos hc, ih (j + 1) (regens + 1) (by omega) (by omega)]
        simp only [Prod.mk.injEq, true_and]
        omega

/-- Helper: when iterations `j..n-1` are transient with tokens and the
`GetToken` of iteration `n < maxRetry` fails, the loop aborts immediately
with that error after `n - j` forced regenerations. -/
theorem restLoop_tokenFail (maxRetry : Nat) (o : RestOracle) (n : Nat)
    (e : String)
    (hbefore : ∀ m, m < n →
      tokenOk (o.tokenResult m) = true ∧ (o.httpOutcome m).isTransient = true)
    (hfail : o.tokenResult n = .error e) (hn : n < maxRetry) :
    ∀ d j regens, n - j = d → j ≤ n →
      restLoop maxRetry o j regens = (.tokenFailed e, regens + (n - j)) := by
  intro d
  induction d with
  | zero =>
    intro j regens hd hj
    have hjn : j = n := by omega
    subst hjn
    unfold restLoop
    rw [dif_neg (by omega)]
    simp only [hfail]
    simp only [Prod.mk.injEq, true_and]
    omega
  | succ d ih =>
    intro j regens hd hj
    have hjlt : j < n := by omega
    obtain ⟨htokj, htrj⟩ := hbefore j hjlt
    unfold restLoop
    rw [dif_neg (by omega)]
    cases he : o.tokenResult j with
    | error e2 => rw [he] at htokj; simp [tokenOk] at htokj
    | ok tok =>
      simp only [he]
      cases hh : o.httpOutcome j with
      | transportFailure =>
        simp only [hh]
        rw [ih (j + 1) (regens + 1) (by omega) (by omega)]
        simp only [Prod.mk.injEq, true_and]
        omega
      | response code2 body2 =>
        rw [hh] at htrj
        have hc : 500 ≤ code2 := by
          simpa [HttpOutcome.isTransient] using htrj
        simp only [hh]
        rw [if_pos hc, ih (j + 1) (regens + 1) (by omega) (by omega)]
        simp only [Prod.mk.injEq, true_and]
        omega

/-- C1: for any `maxRetry >= 1`, a REST call (`UploadBase64File`, `Delete`,
`GetFileById`) whose every attempt is a transport failure or a 5xx performs
exactly `maxRetry` forced token regenerations and fails with the
retry-exhausted error; a call whose attempt `k <= maxRetry` (1-indexed)
returns a non-5xx response performs exactly `k - 1` forced regenerations
and returns the parsed `FileResponse`. -/
theorem C1_rest_retry_bound (maxRetry : Nat) (hm : 1 ≤ maxRetry)
    (parse : String → Except String FileResponse) (o : RestOracle)
    (filename extension mimetype base64file fileID : String)
    (hargs : ¬(filename = "" ∨ extension = "" ∨ mimetype = "" ∨ base64file = "")) :
    ((∀ n, n < maxRetry →
        tokenOk (o.tokenResult n) = true ∧ (o.httpOutcome n).isTransient = true) →
      FileStorageManager.UploadBase64File maxRetry parse o
          filename extension mimetype base64file = (.error .retryExhausted, maxRetry) ∧
      FileStorageManager.Delete maxRetry parse o fileID =
          (.error .retryExhausted, maxRetry) ∧
      FileStorageManager.GetFileById maxRetry parse o fileID =
          (.error .retryExhausted, maxRetry)) ∧
    (∀ k code body fr, 1 ≤ k → k ≤ maxRetry →
      (∀ n, n < k - 1 →
        tokenOk (o.tokenResult n) = true ∧ (o.httpOutcome n).isTransient = true) →
      tokenOk (o.tokenResult (k - 1)) = true →
      o.httpOutcome (k - 1) = .response code body → code < 500 →
      parse body = .ok fr →
      FileStorageManager.UploadBase64File maxRetry parse o
          filename extension mimetype base64file = (.ok fr, k - 1) ∧
      FileStorageManager.Delete maxRetry parse o fileID = (.ok fr, k - 1) ∧
      FileStorageManager.GetFileById maxRetry parse o fileID = (.ok fr, k - 1)) := by
  constructor
  · intro hall
    have hloop : restLoop maxRetry o 0 0 = (.retryExhausted, maxRetry) := by
      simpa using restLoop_exhaust maxRetry o hall maxRetry 0 0 rfl
    have hreq : restRequest maxRetry parse o = (.error .retryExhausted, maxRetry) := by
      simp [restRequest, hloop]
    refine ⟨?_, hreq, hreq⟩
    simp only [FileStorageManager.UploadBase64File]
    rw [if_neg hargs]
    exact hreq
  · intro k code body fr hk1 hk2 hbefore htok hresp hcode hparse
    have hloop : restLoop maxRetry o 0 0 = (.response code body, k - 1) := by
      simpa using restLoop_success maxRetry o (k - 1) code body hbefore htok hresp
        hcode (by omega) (k - 1) 0 0 rfl (by omega)
    have hreq : restRequest maxRetry parse o = (.ok fr, k - 1) := by
      simp [restRequest, hloop, hparse]
    refine ⟨?_, hreq, hreq⟩
    simp only [FileStorageManager.UploadBase64File]
    rw [if_neg hargs]
    exact hreq

/-- C1 witness: with `maxRetry = 2`, a 503 on attempt 1 and a 200 on
attempt 2, the call performs exactly one forced regeneration and returns
the parsed envelope. -/
theorem C1_rest_retry_bound_witness :
    FileStorageManager.UploadBase64File 2 parseW oracleW "f" "txt" "text/plain" "AA" =
      (.ok { status := StatusSuccess }, 1) ∧
    FileStorageManager.Delete 2 parseW oracleW "id" =
      (.ok { status := StatusSuccess }, 1) := by
  have h := (C1_rest_retry_bound 2 (by decide) parseW oracleW "f" "txt" "text/plain"
      "AA" "id" (by decide)).2 2 200 "body" { status := StatusSuccess }
      (by decide) (by decide) (by decide) (by decide) (by decide) (by decide) rfl
  exact ⟨h.1, h.2.1⟩

/-- C5: if `GetToken` fails on loop iteration `n`, every REST operation
returns that error at once with exactly `n` forced regenerations performed,
and the HTTP oracle is never consulted at or beyond iteration `n` (the
result is the same for every oracle that agrees on the token outcomes and
on the HTTP outcomes of the earlier iterations). -/
theorem C5_token_failure_aborts (maxRetry : Nat)
    (parse : String → Except String FileResponse) (o : RestOracle)
    (n : Nat) (e : String)
    (filename extension mimetype base64file fileID : String)
    (hargs : ¬(filename = "" ∨ extension = "" ∨ mimetype = "" ∨ base64file = ""))
    (hbefore : ∀ m, m < n →
      tokenOk (o.tokenResult m) = true ∧ (o.httpOutcome m).isTransient = true)
    (hfail : o.tokenResult n = .error e) (hn : n < maxRetry) :
    (FileStorageManager.UploadBase64File maxRetry parse o
        filename extension mimetype base64file = (.error (.tokenFailed e), n) ∧
     FileStorageManager.Delete maxRetry parse o fileID = (.error (.tokenFailed e), n) ∧
     FileStorageManager.GetFileById maxRetry parse o fileID =
        (.error (.tokenFailed e), n)) ∧
    (∀ o' : RestOracle, o'.tokenResult = o.tokenResult →
      (∀ m, m < n → o'.httpOutcome m = o.httpOutcome m) →
      restRequest maxRetry parse o' = restRequest maxRetry parse o) := by
  have hloop : restLoop maxRetry o 0 0 = (.tokenFailed e, n) := by
    simpa using restLoop_tokenFail maxRetry o n e hbefore hfail hn n 0 0 rfl (by omega)
  have hreq : restRequest maxRetry parse o = (.error (.tokenFailed e), n) := by
    simp [restRequest, hloop]
  constructor
  · refine ⟨?_, hreq, hreq⟩
    simp only [FileStorageManager.UploadBase64File]
    rw [if_neg hargs]
    exact hreq
  · intro o' htr hhttp
    have hbefore' : ∀ m, m < n →
        tokenOk (o'.tokenResult m) = true ∧ (o'.httpOutcome m).isTransient = true := by
      intro m hm
      rw [htr, hhttp m hm]
      exact hbefore m hm
    have hfail' : o'.tokenResult n = .error e := by rw [htr]; exact hfail
    have hloop' : restLoop maxRetry o' 0 0 = (.tokenFailed e, n) := by
      simpa using restLoop_tokenFail maxRetry o' n e hbefore' hfail' hn n 0 0 rfl
        (by omega)
    have hreq' : restRequest maxRetry parse o' = (.error (.tokenFailed e), n) := by
      simp [restRequest, hloop']
    rw [hreq', hreq]

/-- C5 witness: a token failure on the very first iteration aborts the
upload with that error and zero forced regenerations. -/
theorem C5_token_failure_aborts_witness :
    FileStorageManager.UploadBase64File 3 parseW oracleW5 "f" "txt" "text/plain" "AA" =
      (.error (.tokenFailed "boom"), 0) :=
  ((C5_token_failure_aborts 3 parseW oracleW5 0 "boom" "f" "txt" "text/plain" "AA" "id"
      (by decide) (fun m hm => absurd hm (by omega)) rfl (by decide)).1).1

/-- C2 counterexample: `AwsDelete` performs no existence check, and S3
`DeleteObject` is idempotent — it reports no error for an absent key — so
the all-defaults `AwsEnv` (no SDK failure at any step) is exactly the
environment of a delete aimed at a key that is not in the bucket.  On that
concrete input `AwsDelete` returns `status = "OK"` with a `DELETE` message,
not the `ERR`/"not found" envelope the claim asserts for both delete
operations. -/
theorem C2_counterexample :
    FileStorageManager.AwsDelete {} {} "missing.txt" "bucket" =
      .ok { status := StatusSuccess, message := "DELETE missing.txt" } ∧
    StatusSuccess ≠ StatusError := by
  constructor
  · rfl
  · decide

/-- C2 amended: deleting a non-existent key through `GcsDelete` yields
`status = ERR` with the message `Object <id> not found` and a nil error
(the object-absence is observed by the `obj.Attrs` check); `AwsDelete`
performs no existence check, and since `DeleteObject` succeeds for missing
keys it yields `status = OK` with a `DELETE <id>` message and a nil error.
Neither call raises. -/
theorem C2_idempotent_delete (cfg : Config) (env : GcsEnv)
    (gcsFileID bucketname projectID : String)
    (hclient : GetGcsClient cfg env projectID = .ok ())
    (hbucket : env.bucketAttrs = none)
    (hobj : ∃ e, env.objectAttrs = .error e) :
    FileStorageManager.GcsDelete cfg env gcsFileID bucketname projectID =
      .ok { status := StatusError,
            message := "Object " ++ gcsFileID ++ " not found" } ∧
    (∀ (cfg2 : Config) (env2 : AwsEnv) (awsFileID bucketname2 : String),
      env2.newSession = none → env2.deleteObject = none →
      FileStorageManager.AwsDelete cfg2 env2 awsFileID bucketname2 =
        .ok { status := StatusSuccess, message := "DELETE " ++ awsFileID }) := by
  constructor
  · obtain ⟨e, he⟩ := hobj
    simp [FileStorageManager.GcsDelete, hclient, hbucket, he]
  · intro cfg2 env2 awsFileID bucketname2 hns hdel
    simp [FileStorageManager.AwsDelete, GetAwsClient, hns, hdel]

/-- C2 amended witness: concrete GCS delete of an absent object. -/
theorem C2_idempotent_delete_witness :
    FileStorageManager.GcsDelete cfgW gcsEnvMissingObj "a.txt" "b" "" =
      .ok { status := StatusError, message := "Object a.txt not found" } :=
  (C2_idempotent_delete cfgW gcsEnvMissingObj "a.txt" "b" ""
    (by decide) rfl ⟨"storage: object doesn\x27t exist", rfl⟩).1

/-- C8: in `AwsDownloadFile` and `GcsDownloadFile`, when the local file was
created and the subsequent fetch of the backend reader or the copy into the
file fails, the target path is removed before returning: it does not exist
in the resulting file system, and the call returns an `ERR` envelope with a
nil error. -/
theorem C8_download_cleanup (cfg : Config) (fs : FS)
    (awsFileID gcsFileID bucketname projectID saveAsPath : String) :
    (∀ env : AwsEnv, env.newSession = none → env.createFile = none →
      ((∃ e, env.getObject = .error e) ∨ env.copyOutcome ≠ .success) →
      (FileStorageManager.AwsDownloadFile cfg env fs awsFileID bucketname
          saveAsPath).2 saveAsPath = none ∧
      ∃ r, (FileStorageManager.AwsDownloadFile cfg env fs awsFileID bucketname
          saveAsPath).1 = .ok r ∧ r.status = StatusError) ∧
    (∀ env : GcsEnv, GetGcsClient cfg env projectID = .ok () →
      env.bucketAttrs = none → (∃ a, env.objectAttrs = .ok a) →
      env.createFile = none →
      (env.newReader ≠ none ∨ env.copyOutcome ≠ .success) →
      (FileStorageManager.GcsDownloadFile cfg env fs gcsFileID saveAsPath
          bucketname projectID).2 saveAsPath = none ∧
      ∃ r, (FileStorageManager.GcsDownloadFile cfg env fs gcsFileID saveAsPath
          bucketname projectID).1 = .ok r ∧ r.status = StatusError) := by
  constructor
  · intro env hns hcf hfail
    rcases hgo : env.getObject with e | result
    · constructor
      · simp [FileStorageManager.AwsDownloadFile, GetAwsClient, hns, hcf, hgo, fsRemove]
      · exact ⟨{ status := StatusError, message := e }, by
          simp [FileStorageManager.AwsDownloadFile, GetAwsClient, hns, hcf, hgo], rfl⟩
    · rcases hco : env.copyOutcome with _ | ⟨written, e⟩
      · exfalso
        rcases hfail with ⟨e, he⟩ | hne
        · rw [hgo] at he; exact Except.noConfusion he
        · exact hne hco
      · constructor
        · simp [FileStorageManager.AwsDownloadFile, GetAwsClient, hns, hcf, hgo, hco,
            fsRemove]
        · exact ⟨{ status := StatusError, message := e }, by
            simp [FileStorageManager.AwsDownloadFile, GetAwsClient, hns, hcf, hgo, hco],
            rfl⟩
  · intro env hclient hba hoa hcf hfail
    obtain ⟨a, ha⟩ := hoa
    rcases hnr : env.newReader with _ | e
    · rcases hco : env.copyOutcome with _ | ⟨written, e⟩
      · exfalso
        rcases hfail with hne | hne
        · exact hne hnr
        · exact hne hco
      · constructor
        · simp [FileStorageManager.GcsDownloadFile, hclient, hba, ha, hcf, hnr, hco,
            fsRemove]
        · exact ⟨{ status := StatusError, message := e }, by
            simp [FileStorageManager.GcsDownloadFile, hclient, hba, ha, hcf, hnr, hco],
            rfl⟩
    · constructor
      · simp [FileStorageManager.GcsDownloadFile, hclient, hba, ha, hcf, hnr, fsRemove]
      · exact ⟨{ status := StatusError, message := e }, by
          simp [FileStorageManager.GcsDownloadFile, hclient, hba, ha, hcf, hnr], rfl⟩

/-- C8 witness: a concrete mid-copy failure removes the created file on
both backends. -/
theorem C8_download_cleanup_witness :
    (FileStorageManager.AwsDownloadFile {} { copyOutcome := .failure "par" "disk full" }
        (fun _ => none) "f.txt" "b" "/tmp/out").2 "/tmp/out" = none ∧
    (FileStorageManager.GcsDownloadFile cfgW { copyOutcome := .failure "par" "disk full" }
        (fun _ => none) "f.txt" "/tmp/out" "b" "").2 "/tmp/out" = none := by
  have h := C8_download_cleanup {} (fun _ => none) "f.txt" "f.txt" "b" "" "/tmp/out"
  have h2 := C8_download_cleanup cfgW (fun _ => none) "f.txt" "f.txt" "b" "" "/tmp/out"
  exact ⟨(h.1 { copyOutcome := .failure "par" "disk full" } rfl rfl
      (Or.inr (by decide))).1,
    (h2.2 { copyOutcome := .failure "par" "disk full" } (by decide) rfl ⟨{}, rfl⟩ rfl
      (Or.inr (by decide))).1⟩

/-- C4: every object-store operation returns a nil error whenever its
multipart source (if any) was readable — an SDK failure is never raised —
and whenever any backend-SDK step failed the returned envelope carries
`status = ERR` (with the failing step's message, as visible in the
definitions above). -/
theorem C4_sdk_failures_enveloped (cfg : Config) :
    (∀ (env : AwsEnv) (uuid : String) (now : Int) (file : MultipartFile)
        (subdirectory bucketname : String) (data : String),
      file.content = .ok data →
      (∀ e, FileStorageManager.AwsUpload cfg env uuid now file subdirectory
          bucketname ≠ .error e) ∧
      (¬(env.newSession = none ∧ env.putObject = none) →
        statusOf (FileStorageManager.AwsUpload cfg env uuid now file subdirectory
          bucketname) = StatusError)) ∧
    (∀ (env : AwsEnv) (awsFileID bucketname : String),
      (∀ e, FileStorageManager.AwsDelete cfg env awsFileID bucketname ≠ .error e) ∧
      (¬(env.newSession = none ∧ env.deleteObject = none) →
        statusOf (FileStorageManager.AwsDelete cfg env awsFileID bucketname) =
          StatusError)) ∧
    (∀ (env : AwsEnv) (b64 : String → String) (now : Int)
        (awsFileID bucketname : String),
      (∀ e, FileStorageManager.AwsGetFileById cfg env b64 now awsFileID
          bucketname ≠ .error e) ∧
      (¬(env.newSession = none ∧ (∃ r, env.getObject = .ok r) ∧
          env.readBody = none) →
        statusOf (FileStorageManager.AwsGetFileById cfg env b64 now awsFileID
          bucketname) = StatusError)) ∧
    (∀ (env : AwsEnv) (fs : FS) (awsFileID bucketname saveAsPath : String),
      (∀ e, (FileStorageManager.AwsDownloadFile cfg env fs awsFileID bucketname
          saveAsPath).1 ≠ .error e) ∧
      (¬(env.newSession = none ∧ env.createFile = none ∧
          (∃ r, env.getObject = .ok r) ∧ env.copyOutcome = .success) →
        statusOf (FileStorageManager.AwsDownloadFile cfg env fs awsFileID
          bucketname saveAsPath).1 = StatusError)) ∧
    (∀ (env : AwsEnv) (now expiry : Int) (awsFileID bucketname : String),
      (∀ e, FileStorageManager.AwsGetTemporaryPublicLink cfg env now awsFileID
          expiry bucketname ≠ .error e) ∧
      (¬(env.newSession = none ∧ (∃ u, env.presign = .ok u)) →
        statusOf (FileStorageManager.AwsGetTemporaryPublicLink cfg env now
          awsFileID expiry bucketname) = StatusError)) ∧
    (∀ (env : GcsEnv) (uuid : String) (file : MultipartFile)
        (subdirectory bucketname projectID : String) (data : String),
      file.content = .ok data →
      (∀ e, FileStorageManager.GcsUpload cfg env uuid file subdirectory
          bucketname projectID ≠ .error e) ∧
      (¬(GetGcsClient cfg env projectID = .ok () ∧ env.bucketAttrs = none ∧
          env.writeErr = none ∧ env.closeErr = none ∧
          (∃ a, env.objectAttrs = .ok a)) →
        statusOf (FileStorageManager.GcsUpload cfg env uuid file subdirectory
          bucketname projectID) = StatusError)) ∧
    (∀ (env : GcsEnv) (gcsFileID bucketname projectID : String),
      (∀ e, FileStorageManager.GcsDelete cfg env gcsFileID bucketname
          projectID ≠ .error e) ∧
      (¬(GetGcsClient cfg env projectID = .ok () ∧ env.bucketAttrs = none ∧
          (∃ a, env.objectAttrs = .ok a) ∧ env.deleteObject = none) →
        statusOf (FileStorageManager.GcsDelete cfg env gcsFileID bucketname
          projectID) = StatusError)) ∧
    (∀ (env : GcsEnv) (b64 : String → String)
        (gcsFileID bucketname projectID : String),
      (∀ e, FileStorageManager.GcsGetFileById cfg env b64 gcsFileID bucketname
          projectID ≠ .error e) ∧
      (¬(GetGcsClient cfg env projectID = .ok () ∧ env.bucketAttrs = none ∧
          (∃ a, env.objectAttrs = .ok a) ∧ env.newReader = none ∧
          env.readAllErr = none) →
        statusOf (FileStorageManager.GcsGetFileById cfg env b64 gcsFileID
          bucketname projectID) = StatusError)) ∧
    (∀ (env : GcsEnv) (fs : FS) (gcsFileID saveAsPath bucketname projectID : String),
      (∀ e, (FileStorageManager.GcsDownloadFile cfg env fs gcsFileID saveAsPath
          bucketname projectID).1 ≠ .error e) ∧
      (¬(GetGcsClient cfg env projectID = .ok () ∧ env.bucketAttrs = none ∧
          (∃ a, env.objectAttrs = .ok a) ∧ env.createFile = none ∧
          env.newReader = none ∧ env.copyOutcome = .success) →
        statusOf (FileStorageManager.GcsDownloadFile cfg env fs gcsFileID
          saveAsPath bucketname projectID).1 = StatusError)) ∧
    (∀ (env : GcsEnv) (gcsFileID bucketname projectID : String),
      (∀ e, FileStorageManager.GcsGetFileByIdAsString cfg env gcsFileID
          bucketname projectID ≠ .error e) ∧
      (¬(GetGcsClient cfg env projectID = .ok () ∧ env.bucketAttrs = none ∧
          (∃ a, env.objectAttrs = .ok a) ∧ env.newReader = none ∧
          env.readAllErr = none) →
        statusOf (FileStorageManager.GcsGetFileByIdAsString cfg env gcsFileID
          bucketname projectID) = StatusError)) ∧
    (∀ (env : GcsEnv) (gcsFileID bucketname projectID : String),
      (∀ e, FileStorageManager.GcsGetFileByIdAsStream cfg env gcsFileID
          bucketname projectID ≠ .error e) ∧
      (¬(GetGcsClient cfg env projectID = .ok () ∧ env.bucketAttrs = none ∧
          (∃ a, env.objectAttrs = .ok a) ∧ env.newReader = none) →
        statusOf (FileStorageManager.GcsGetFileByIdAsStream cfg env gcsFileID
          bucketname projectID) = StatusError)) ∧
    (∀ (env : GcsEnv) (now expiry : Int) (gcsFileID bucketname projectID : String),
      (∀ e, FileStorageManager.GcsGetTemporaryPublicLink cfg env now gcsFileID
          expiry bucketname projectID ≠ .error e) ∧
      (¬(GetGcsClient cfg env projectID = .ok () ∧ env.bucketAttrs = none ∧
          (∃ a, env.objectAttrs = .ok a) ∧ (∃ s, env.keyFile = .ok s) ∧
          (∃ kd, env.keyUnmarshal = .ok kd) ∧ (∃ u, env.signedURL = .ok u)) →
        statusOf (FileStorageManager.GcsGetTemporaryPublicLink cfg env now
          gcsFileID expiry bucketname projectID) = StatusError)) := by
  refine ⟨?_, ?_, ?_, ?_, ?_, ?_, ?_, ?_, ?_, ?_, ?_, ?_⟩
  · intro env uuid now file subdirectory bucketname data hc
    cases hns : env.newSession with
    | some e =>
      constructor
      · intro e2; simp [FileStorageManager.AwsUpload, GetAwsClient, hc, hns]
      · intro hfail
        simp [statusOf, FileStorageManager.AwsUpload, GetAwsClient, hc, hns]
    | none =>
      constructor
      · intro e2
        simp only [FileStorageManager.AwsUpload, GetAwsClient, hc, hns]
        repeat' split
        all_goals simp_all
      · intro hfail
        simp only [FileStorageManager.AwsUpload, GetAwsClient, hc, hns]
        repeat' split
        all_goals simp_all [statusOf]
  · intro env awsFileID bucketname
    cases hns : env.newSession with
    | some e =>
      constructor
      · intro e2; simp [FileStorageManager.AwsDelete, GetAwsClient, hns]
      · intro hfail; simp [statusOf, FileStorageManager.AwsDelete, GetAwsClient, hns]
    | none =>
      constructor
      · intro e2
        simp only [FileStorageManager.AwsDelete, GetAwsClient, hns]
        repeat' split
        all_goals simp_all
      · intro hfail
        simp only [FileStorageManager.AwsDelete, GetAwsClient, hns]
        repeat' split
        all_goals simp_all [statusOf]
  · intro env b64 now awsFileID bucketname
    cases hns : env.newSession with
    | some e =>
      constructor
      · intro e2; simp [FileStorageManager.AwsGetFileById, GetAwsClient, hns]
      · intro hfail
        simp [statusOf, FileStorageManager.AwsGetFileById, GetAwsClient, hns]
    | none =>
      constructor
      · intro e2
        simp only [FileStorageManager.AwsGetFileById, GetAwsClient, hns]
        repeat' split
        all_goals simp_all
      · intro hfail
        simp only [FileStorageManager.AwsGetFileById, GetAwsClient, hns]
        repeat' split
        all_goals simp_all [statusOf]
  · intro env fs awsFileID bucketname saveAsPath
    cases hns : env.newSession with
    | some e =>
      constructor
      · intro e2; simp [FileStorageManager.AwsDownloadFile, GetAwsClient, hns]
      · intro hfail
        simp [statusOf, FileStorageManager.AwsDownloadFile, GetAwsClient, hns]
    | none =>
      constructor
      · intro e2
        simp only [FileStorageManager.AwsDownloadFile, GetAwsClient, hns]
        repeat' split
        all_goals simp_all
      · intro hfail
        simp only [FileStorageManager.AwsDownloadFile, GetAwsClient, hns]
        repeat' split
        all_goals simp_all [statusOf]
  · intro env now expiry awsFileID bucketname
    cases hns : env.newSession with
    | some e =>
      constructor
      · intro e2
        simp [FileStorageManager.AwsGetTemporaryPublicLink, GetAwsClient, hns]
      · intro hfail
        simp [statusOf, FileStorageManager.AwsGetTemporaryPublicLink, GetAwsClient, hns]
    | none =>
      constructor
      · intro e2
        simp only [FileStorageManager.AwsGetTemporaryPublicLink, GetAwsClient, hns]
        repeat' split
        all_goals simp_all
      · intro hfail
        simp only [FileStorageManager.AwsGetTemporaryPublicLink, GetAwsClient, hns]
        repeat' split
        all_goals simp_all [statusOf]
  · intro env uuid file subdirectory bucketname projectID data hc
    cases hgc : GetGcsClient cfg env projectID with
    | error e =>
      constructor
      · intro e2; simp [FileStorageManager.GcsUpload, hc, hgc]
      · intro hfail; simp [statusOf, FileStorageManager.GcsUpload, hc, hgc]
    | ok u =>
      cases u
      constructor
      · intro e2
        simp only [FileStorageManager.GcsUpload, hc, hgc]
        repeat' split
        all_goals simp_all
      · intro hfail
        simp only [FileStorageManager.GcsUpload, hc, hgc]
        repeat' split
        all_goals simp_all [statusOf]
  · intro env gcsFileID bucketname projectID
    cases hgc : GetGcsClient cfg env projectID with
    | error e =>
      constructor
      · intro e2; simp [FileStorageManager.GcsDelete, hgc]
      · intro hfail; simp [statusOf, FileStorageManager.GcsDelete, hgc]
    | ok u =>
      cases u
      constructor
      · intro e2
        simp only [FileStorageManager.GcsDelete, hgc]
        repeat' split
        all_goals simp_all
      · intro hfail
        simp only [FileStorageManager.GcsDelete, hgc]
        repeat' split
        all_goals simp_all [statusOf]
  · intro env b64 gcsFileID bucketname projectID
    cases hgc : GetGcsClient cfg env projectID with
    | error e =>
      constructor
      · intro e2; simp [FileStorageManager.GcsGetFileById, hgc]
      · intro hfail; simp [statusOf, FileStorageManager.GcsGetFileById, hgc]
    | ok u =>
      cases u
      constructor
      · intro e2
        simp only [FileStorageManager.GcsGetFileById, hgc]
        repeat' split
        all_goals simp_all
      · intro hfail
        simp only [FileStorageManager.GcsGetFileById, hgc]
        repeat' split
        all_goals simp_all [statusOf]
  · intro env fs gcsFileID saveAsPath bucketname projectID
    cases hgc : GetGcsClient cfg env projectID with
    | error e =>
      constructor
      · intro e2; simp [FileStorageManager.GcsDownloadFile, hgc]
      · intro hfail; simp [statusOf, FileStorageManager.GcsDownloadFile, hgc]
    | ok u =>
      cases u
      constructor
      · intro e2
        simp only [FileStorageManager.GcsDownloadFile, hgc]
        repeat' split
        all_goals simp_all
      · intro hfail
        simp only [FileStorageManager.GcsDownloadFile, hgc]
        repeat' split
        all_goals simp_all [statusOf]
  · intro env gcsFileID bucketname projectID
    cases hgc : GetGcsClient cfg env projectID with
    | error e =>
      constructor
      · intro e2; simp [FileStorageManager.GcsGetFileByIdAsString, hgc]
      · intro hfail; simp [statusOf, FileStorageManager.GcsGetFileByIdAsString, hgc]
    | ok u =>
      cases u
      constructor
      · intro e2
        simp only [FileStorageManager.GcsGetFileByIdAsString, hgc]
        repeat' split
        all_goals simp_all
      · intro hfail
        simp only [FileStorageManager.GcsGetFileByIdAsString, hgc]
        repeat' split
        all_goals simp_all [statusOf]
  · intro env gcsFileID bucketname projectID
    cases hgc : GetGcsClient cfg env projectID with
    | error e =>
      constructor
      · intro e2; simp [FileStorageManager.GcsGetFileByIdAsStream, hgc]
      · intro hfail; simp [statusOf, FileStorageManager.GcsGetFileByIdAsStream, hgc]
    | ok u =>
      cases u
      constructor
      · intro e2
        simp only [FileStorageManager.GcsGetFileByIdAsStream, hgc]
        repeat' split
        all_goals simp_all
      · intro hfail
        simp only [FileStorageManager.GcsGetFileByIdAsStream, hgc]
        repeat' split
        all_goals simp_all [statusOf]
  · intro env now expiry gcsFileID bucketname projectID
    cases hgc : GetGcsClient cfg env projectID with
    | error e =>
      constructor
      · intro e2; simp [FileStorageManager.GcsGetTemporaryPublicLink, hgc]
      · intro hfail; simp [statusOf, FileStorageManager.GcsGetTemporaryPublicLink, hgc]
    | ok u =>
      cases u
      constructor
      · intro e2
        simp only [FileStorageManager.GcsGetTemporaryPublicLink, hgc]
        repeat' split
        all_goals simp_all
      · intro hfail
        simp only [FileStorageManager.GcsGetTemporaryPublicLink, hgc]
        repeat' split
        all_goals simp_all [statusOf]

/-- C4 witness: a concrete PutObject failure surfaces as an `ERR` envelope
with a nil error. -/
theorem C4_sdk_failures_enveloped_witness :
    statusOf (FileStorageManager.AwsUpload {} { putObject := some "access denied" }
      "u1" 0 { filename := "a.txt" } "" "") = StatusError := by
  have h := ((C4_sdk_failures_enveloped {}).1 { putObject := some "access denied" }
      "u1" 0 { filename := "a.txt" } "" "" "" rfl).2
  exact h (by simp)

/-- Helper: the first element surviving `dropWhile` fails the predicate. -/
theorem dropWhile_head_false {α : Type} (q : α → Bool) :
    ∀ (l : List α) (c : α) (t : List α), l.dropWhile q = c :: t → q c = false := by
  intro l
  induction l with
  | nil => intro c t h; exact absurd h (by simp)
  | cons a l2 ih =>
    intro c t h
    rw [List.dropWhile_cons] at h
    by_cases hq : q a
    · rw [if_pos hq] at h
      exact ih c t h
    · rw [if_neg hq] at h
      cases h
      simpa using hq

/-- Helper: a path whose base contains no dot has an empty `filepath.Ext`. -/
theorem goExt_empty (s : String) (h : '.' ∉ s.toList) : goExt s = "" := by
  have hseg : '.' ∉ s.toList.reverse.takeWhile (fun c => c != '/') := by
    intro hm
    exact h (List.mem_reverse.mp ((List.takeWhile_sublist _).mem hm))
  simp only [goExt]
  rw [if_neg hseg]

/-- Helper: `filepath.Base` never returns the empty string. -/
theorem goPathBase_ne_empty (s : String) : goPathBase s ≠ "" := by
  simp only [goPathBase]
  by_cases h0 : s = ""
  · rw [if_pos h0]; decide
  · rw [if_neg h0]
    by_cases hp : (s.toList.reverse.dropWhile (fun c => c == '/')).reverse = []
    · rw [if_pos hp]; decide
    · rw [if_neg hp]
      rw [List.reverse_reverse]
      have hdne : s.toList.reverse.dropWhile (fun c => c == '/') ≠ [] := by
        intro hnil
        exact hp (by rw [hnil]; rfl)
      cases hd : s.toList.reverse.dropWhile (fun c => c == '/') with
      | nil => exact absurd hd hdne
      | cons c t =>
        have hc : (c == '/') = false := dropWhile_head_false _ _ c t hd
        rw [List.takeWhile_cons]
        rw [if_pos (by simp [bne, hc])]
        intro hEq
        have hdata : (c :: List.takeWhile (fun x => x != '/') t).reverse = [] :=
          congrArg String.data hEq
        simp at hdata

/-- Helper: trimming with the empty extension removes exactly the final
character. -/
theorem goTrimName_empty (s : String) :
    goTrimName s "" = ⟨s.toList.dropLast⟩ := by
  have h0 : ("" : String).toList.length = 0 := rfl
  simp only [goTrimName, h0, Nat.sub_zero]
  rw [List.dropLast_eq_take]

/-- Helper: removing the final character of a nonempty string changes it. -/
theorem dropLast_ne_self (s : String) (h : s ≠ "") :
    (⟨s.toList.dropLast⟩ : String) ≠ s := by
  intro hEq
  have hd : s.toList.dropLast = s.toList := congrArg String.toList hEq
  have hlen := congrArg List.length hd
  rw [List.length_dropLast] at hlen
  have hne : s.toList ≠ [] := by
    intro hl
    apply h
    cases s with
    | mk d =>
      simp [String.toList] at hl
      rw [hl]
  have hlz : s.toList.length ≠ 0 := by
    intro h0
    exact hne (List.eq_nil_of_length_eq_zero h0)
  omega

/-- C10: when a multipart upload's base filename contains no dot, the
computed extension is empty, the recorded `FileName` is the base filename
with its final character removed (so it differs from the original name),
and the generated storage key is `uuid ++ "."` — ending in a bare dot —
optionally behind the subdirectory, for both `AwsUpload` and
`GcsUpload`. -/
theorem C10_upload_naming (cfg : Config) (envA : AwsEnv) (envG : GcsEnv)
    (uuid : String) (now : Int) (file : MultipartFile)
    (subdirectory bucketname projectID : String) (data : String) (attrs : GcsAttrs)
    (hc : file.content = .ok data)
    (hnodot : '.' ∉ (goPathBase file.filename).toList)
    (hns : envA.newSession = none) (hpo : envA.putObject = none)
    (hgc : GetGcsClient cfg envG projectID = .ok ())
    (hba : envG.bucketAttrs = none) (hwe : envG.writeErr = none)
    (hce : envG.closeErr = none) (hoa : envG.objectAttrs = .ok attrs) :
    Option.map FileInfo.FileName (infoOf (FileStorageManager.AwsUpload cfg envA uuid
        now file subdirectory bucketname)) =
      some ⟨(goPathBase file.filename).toList.dropLast⟩ ∧
    Option.map FileInfo.FileName (infoOf (FileStorageManager.GcsUpload cfg envG uuid
        file subdirectory bucketname projectID)) =
      some ⟨(goPathBase file.filename).toList.dropLast⟩ ∧
    (⟨(goPathBase file.filename).toList.dropLast⟩ : String) ≠ goPathBase file.filename ∧
    Option.map FileInfo.FileExt (infoOf (FileStorageManager.AwsUpload cfg envA uuid
        now file subdirectory bucketname)) = some "" ∧
    Option.map FileInfo.FileExt (infoOf (FileStorageManager.GcsUpload cfg envG uuid
        file subdirectory bucketname projectID)) = some "" ∧
    fileIDOf (FileStorageManager.AwsUpload cfg envA uuid now file subdirectory
        bucketname) =
      (if subdirectory ≠ "" then subdirectory ++ "/" ++ (uuid ++ ".") else uuid ++ ".") ∧
    fileIDOf (FileStorageManager.GcsUpload cfg envG uuid file subdirectory bucketname
        projectID) =
      (if subdirectory ≠ "" then subdirectory ++ "/" ++ (uuid ++ ".") else uuid ++ ".") := by
  have hext : goStripDot (goExt (goPathBase file.filename)) = "" := by
    rw [goExt_empty _ hnodot]
    rfl
  have htrim := goTrimName_empty (goPathBase file.filename)
  refine ⟨?_, ?_, dropLast_ne_self _ (goPathBase_ne_empty file.filename), ?_, ?_, ?_, ?_⟩
  · simp [FileStorageManager.AwsUpload, GetAwsClient, hc, hns, hpo, hext, htrim, infoOf]
  · simp [FileStorageManager.GcsUpload, hc, hgc, hba, hwe, hce, hoa, hext, htrim, infoOf]
  · simp [FileStorageManager.AwsUpload, GetAwsClient, hc, hns, hpo, hext, infoOf]
  · simp [FileStorageManager.GcsUpload, hc, hgc, hba, hwe, hce, hoa, hext, infoOf]
  · simp [FileStorageManager.AwsUpload, GetAwsClient, hc, hns, hpo, hext, fileIDOf,
      String.append_empty]
  · simp [FileStorageManager.GcsUpload, hc, hgc, hba, hwe, hce, hoa, hext, fileIDOf,
      String.append_empty]

/-- C10 witness: uploading a file named `readme` (no dot) records
`FileName = "readm"` and generates the key `u1.` with a bare trailing
dot. -/
theorem C10_upload_naming_witness :
    Option.map FileInfo.FileName (infoOf (FileStorageManager.AwsUpload cfgW {} "u1" 0
        { filename := "readme" } "" "")) = some "readm" ∧
    fileIDOf (FileStorageManager.AwsUpload cfgW {} "u1" 0
        { filename := "readme" } "" "") = "u1." := by
  have h := C10_upload_naming cfgW {} {} "u1" 0 { filename := "readme" } "" "" "" "" {}
    rfl (by decide) rfl rfl (by decide) rfl rfl rfl rfl
  exact ⟨h.1, h.2.2.2.2.2.1⟩

end Filestorage
